import Mathlib

/-!
Shallow embedding of the encrypted key vault of `nekoton`
(`src/crypto/encrypted_key/mod.rs` together with the `trust_me` helper of
`src/utils.rs`), and proofs of the specification claims about it.

Bytes are modelled as `Fin 256`; byte strings as `List Byte`.  The external
collaborators (PBKDF2, ChaCha20-Poly1305, the Ed25519 primitives, the
mnemonic deriver and the serde_json text layer) are modelled as concrete
executable functions; the vault code itself is translated statement by
statement from the source.
-/

set_option autoImplicit false
set_option maxRecDepth 100000

instance {ε α : Type} [DecidableEq ε] [DecidableEq α] : DecidableEq (Except ε α) := fun x y =>
  match x, y with
  | .ok a, .ok b =>
    if h : a = b then isTrue (by rw [h]) else isFalse (fun hc => h (Except.ok.inj hc))
  | .ok _, .error _ => isFalse (fun hc => Except.noConfusion hc)
  | .error _, .ok _ => isFalse (fun hc => Except.noConfusion hc)
  | .error a, .error b =>
    if h : a = b then isTrue (by rw [h]) else isFalse (fun hc => h (Except.error.inj hc))

abbrev Byte := Fin 256

/-- Lowercase hex digit for a value below 16 (encoder of the `hex` crate). -/
def hexChar (n : Fin 16) : Char :=
  if n.val < 10 then Char.ofNat (48 + n.val) else Char.ofNat (87 + n.val)

/-- Hex digit value, case-insensitive on read (decoder of the `hex` crate). -/
def hexDigitVal (c : Char) : Option (Fin 16) :=
  if h : 48 ≤ c.toNat ∧ c.toNat ≤ 57 then some ⟨c.toNat - 48, by omega⟩
  else if h : 97 ≤ c.toNat ∧ c.toNat ≤ 102 then some ⟨c.toNat - 87, by omega⟩
  else if h : 65 ≤ c.toNat ∧ c.toNat ≤ 70 then some ⟨c.toNat - 55, by omega⟩
  else none

/-- `hex::encode`: lowercase hex, two digits per byte. -/
def hexEncodeList : List Byte → List Char
  | [] => []
  | b :: bs =>
    hexChar ⟨b.val / 16, by omega⟩ :: hexChar ⟨b.val % 16, by omega⟩ :: hexEncodeList bs

/-- `hex::decode`: fails on odd length or a non-hex character. -/
def hexDecodeList : List Char → Option (List Byte)
  | [] => some []
  | [_] => none
  | c1 :: c2 :: rest =>
    match hexDigitVal c1, hexDigitVal c2, hexDecodeList rest with
    | some h, some l, some bs => some (⟨h.val * 16 + l.val, by omega⟩ :: bs)
    | _, _, _ => none

theorem hexDigitVal_hexChar : ∀ n : Fin 16, hexDigitVal (hexChar n) = some n := by decide

theorem hexDecode_hexEncode (bs : List Byte) : hexDecodeList (hexEncodeList bs) = some bs := by
  induction bs with
  | nil => rfl
  | cons b bs ih =>
    have hb := b.isLt
    simp only [hexEncodeList, hexDecodeList, hexDigitVal_hexChar, ih]
    congr 1
    apply List.cons_eq_cons.mpr
    refine ⟨?_, rfl⟩
    apply Fin.ext
    simp only []
    omega

/-- JSON values, the level at which serde_json hands data to the field
codecs of `CryptoData`.  The serde_json text layer (printing and parsing
of the blob) is an external collaborator and is modelled as the identity
between blobs and JSON values. -/
inductive Json where
  | null
  | bool (b : Bool)
  | num (n : Int)
  | str (s : List Char)
  | obj (fields : List (List Char × Json))

/-- Modelled from the spec: the mnemonic kind enum of `crypto::mnemonic`
(not under `src/`), an enum of mnemonic kinds with a stable string form;
the spec names the `Legacy` kind. -/
inductive MnemonicType where
  | Legacy
deriving DecidableEq

def MnemonicType.toStr : MnemonicType → List Char
  | .Legacy => "Legacy".toList

def MnemonicType.fromStr (s : List Char) : Except (List Char) MnemonicType :=
  if s = "Legacy".toList then .ok .Legacy else .error "Unknown enum variant".toList

/-- The persisted record (`CryptoData` in the source). -/
structure CryptoData where
  account_type : MnemonicType
  name : List Char
  pubkey : List Byte
  encrypted_private_key : List Byte
  private_key_nonce : List Byte
  encrypted_seed_phrase : List Byte
  seed_phrase_nonce : List Byte
  salt : List Byte
deriving DecidableEq

/-- The serde `Serialize` derive for `CryptoData`: every field is written
with `serialize_str` (hex-encoded where the source says `with = "hex_..."`). -/
def CryptoData.toJson (d : CryptoData) : Json :=
  .obj [("account_type".toList, .str d.account_type.toStr),
        ("name".toList, .str d.name),
        ("pubkey".toList, .str (hexEncodeList d.pubkey)),
        ("encrypted_private_key".toList, .str (hexEncodeList d.encrypted_private_key)),
        ("private_key_nonce".toList, .str (hexEncodeList d.private_key_nonce)),
        ("encrypted_seed_phrase".toList, .str (hexEncodeList d.encrypted_seed_phrase)),
        ("seed_phrase_nonce".toList, .str (hexEncodeList d.seed_phrase_nonce)),
        ("salt".toList, .str (hexEncodeList d.salt))]

def lookupField : List (List Char × Json) → List Char → Option Json
  | [], _ => none
  | (k, v) :: rest, nm => if k = nm then some v else lookupField rest nm

/-- Extract the string content of a named field of a JSON object
(deserializing a `String`, as every field codec of the source begins). -/
def getStr (j : Json) (nm : List Char) : Except (List Char) (List Char) :=
  match j with
  | .obj fields =>
    match lookupField fields nm with
    | some (.str s) => .ok s
    | some _ => .error "invalid type".toList
    | none => .error "missing field".toList
  | _ => .error "invalid type".toList

/-- `hex_encode::deserialize`: a string field, hex-decoded, no length check. -/
def hex_encode_deserialize (j : Json) (nm : List Char) : Except (List Char) (List Byte) :=
  match getStr j nm with
  | .error e => .error e
  | .ok s =>
    match hexDecodeList s with
    | some bs => .ok bs
    | none => .error "invalid hex".toList

/-- `hex_nonce::deserialize`: hex-decode, then reject length different from
`NONCE_LENGTH = 12`. -/
def hex_nonce_deserialize (j : Json) (nm : List Char) : Except (List Char) (List Byte) :=
  match hex_encode_deserialize j nm with
  | .error e => .error e
  | .ok x => if x.length = 12 then .ok x else .error "Bad nonce len".toList

/-- `hex_pubkey::deserialize`: hex-decode, then `PublicKey::from_bytes`,
modelled as the spec constraint that a public key is exactly 32 bytes. -/
def hex_pubkey_deserialize (j : Json) (nm : List Char) : Except (List Char) (List Byte) :=
  match hex_encode_deserialize j nm with
  | .error e => .error e
  | .ok x => if x.length = 32 then .ok x else .error "invalid public key".toList

/-- The `account_type` field: the string form of `MnemonicType`. -/
def account_type_deserialize (j : Json) : Except (List Char) MnemonicType :=
  match getStr j "account_type".toList with
  | .error e => .error e
  | .ok s => MnemonicType.fromStr s

/-- `EncryptedKey::from_reader` at the JSON-value level:
`serde_json::from_reader::<CryptoData>` with the field codecs of the source. -/
def from_reader (j : Json) : Except (List Char) CryptoData :=
  match account_type_deserialize j with
  | .error e => .error e
  | .ok account_type =>
  match getStr j "name".toList with
  | .error e => .error e
  | .ok name =>
  match hex_pubkey_deserialize j "pubkey".toList with
  | .error e => .error e
  | .ok pubkey =>
  match hex_encode_deserialize j "encrypted_private_key".toList with
  | .error e => .error e
  | .ok encrypted_private_key =>
  match hex_nonce_deserialize j "private_key_nonce".toList with
  | .error e => .error e
  | .ok private_key_nonce =>
  match hex_encode_deserialize j "encrypted_seed_phrase".toList with
  | .error e => .error e
  | .ok encrypted_seed_phrase =>
  match hex_nonce_deserialize j "seed_phrase_nonce".toList with
  | .error e => .error e
  | .ok seed_phrase_nonce =>
  match hex_encode_deserialize j "salt".toList with
  | .error e => .error e
  | .ok salt =>
  .ok { account_type := account_type, name := name, pubkey := pubkey,
        encrypted_private_key := encrypted_private_key,
        private_key_nonce := private_key_nonce,
        encrypted_seed_phrase := encrypted_seed_phrase,
        seed_phrase_nonce := seed_phrase_nonce, salt := salt }

/-- `TrustMe::trust_me` of `src/utils.rs`: unwrap a result, panicking on
an error; the panic is modelled as `none`. -/
def trust_me {ε α : Type} : Except ε α → Option α
  | .ok a => some a
  | .error _ => none

/-- `serde_json::to_string` on `CryptoData` at the JSON-value level: every
field serializer of the source calls `serialize_str`, which cannot fail, so
serialization reaches `.ok` on every record. -/
def serde_json_to_string (d : CryptoData) : Except (List Char) Json :=
  .ok d.toJson

/-- `EncryptedKey::as_json`: `serde_json::to_string(&self.inner).trust_me()`. -/
def as_json (d : CryptoData) : Option Json :=
  trust_me (serde_json_to_string d)

/-! ## Models of the external cryptographic collaborators -/

/-- A small executable pseudorandom byte function, the building block of the
models of the external primitives below. -/
def prf (seed : Nat) (data : List Byte) : Byte :=
  ⟨data.foldl (fun a b => (a * 131 + b.val + 1) % 256) (seed % 256) % 256,
   Nat.mod_lt _ (by omega)⟩

/-- Modelled external collaborator: `symmetric_key_from_password` wraps
PBKDF2-HMAC-SHA256 of the `ring` crate; a deterministic 32-byte function of
(password, salt). -/
def symmetric_key_from_password (password salt : List Byte) : List Byte :=
  (List.range 32).map (fun i => prf (4 * i) (password ++ (0 : Byte) :: salt))

/-- ChaCha20 keystream model: `n` bytes determined by (key, nonce). -/
def keystream (key nonce : List Byte) (n : Nat) : List Byte :=
  (List.range n).map (fun i => prf (4 * i + 1) (key ++ (1 : Byte) :: nonce))

/-- Poly1305 tag model: 16 bytes determined by (key, nonce, ciphertext body). -/
def poly_tag (key nonce body : List Byte) : List Byte :=
  (List.range 16).map (fun i => prf (4 * i + 2) (key ++ (2 : Byte) :: nonce ++ (2 : Byte) :: body))

/-- Modelled external collaborator: ChaCha20-Poly1305 encryption — the
ciphertext body with the 16-byte authentication tag appended. -/
def aeadEncrypt (key nonce msg : List Byte) : List Byte :=
  let body := List.zipWith (fun m k => m + k) msg (keystream key nonce msg.length)
  body ++ poly_tag key nonce body

/-- Modelled external collaborator: ChaCha20-Poly1305 decryption — split off
the 16-byte tag, verify it, and decrypt the body; `none` on any mismatch. -/
def aeadDecrypt (key nonce ct : List Byte) : Option (List Byte) :=
  if 16 ≤ ct.length then
    let body := ct.take (ct.length - 16)
    let t := ct.drop (ct.length - 16)
    if t = poly_tag key nonce body then
      some (List.zipWith (fun c k => c - k) body (keystream key nonce body.length))
    else none
  else none

theorem zipWith_sub_zipWith_add (ks : List Byte) :
    ∀ msg : List Byte, msg.length ≤ ks.length →
      List.zipWith (fun c k => c - k) (List.zipWith (fun m k => m + k) msg ks) ks = msg := by
  induction ks with
  | nil =>
    intro msg h
    cases msg with
    | nil => rfl
    | cons m ms => simp at h
  | cons k ks ih =>
    intro msg h
    cases msg with
    | nil => rfl
    | cons m ms =>
      simp only [List.zipWith_cons_cons, add_sub_cancel_right, List.cons.injEq, true_and]
      exact ih ms (by simpa using h)

/-- AEAD round trip: decrypting a fresh encryption returns the message. -/
theorem aeadDecrypt_aeadEncrypt (key nonce msg : List Byte) :
    aeadDecrypt key nonce (aeadEncrypt key nonce msg) = some msg := by
  have hks : (keystream key nonce msg.length).length = msg.length := by
    simp [keystream]
  have hbody : (List.zipWith (fun m k => m + k) msg (keystream key nonce msg.length)).length
      = msg.length := by
    simp [hks]
  have htag : (poly_tag key nonce (List.zipWith (fun m k => m + k) msg
      (keystream key nonce msg.length))).length = 16 := by
    simp [poly_tag]
  simp only [aeadEncrypt, aeadDecrypt, List.length_append, hbody, htag]
  have hlen : 16 ≤ msg.length + 16 := by omega
  rw [if_pos hlen]
  have hcut : msg.length + 16 - 16 = msg.length := by omega
  rw [hcut]
  rw [List.take_append_of_le_length (by omega), List.take_of_length_le (by omega)]
  rw [List.drop_append_of_le_length (by omega)]
  rw [List.drop_of_length_le (by omega)]
  simp only [List.nil_append, hbody]
  rw [if_pos trivial]
  congr 1
  exact zipWith_sub_zipWith_add _ msg (by omega)

/-- Modelled external collaborator: `ed25519_dalek::PublicKey::from(&SecretKey)` —
the deterministic 32-byte public key derived from a secret seed. -/
def publicKeyFromSecret (secret : List Byte) : List Byte :=
  (List.range 32).map (fun i => prf (4 * i + 3) ((3 : Byte) :: secret))

/-- Modelled external collaborator: `ed25519_dalek::Keypair::sign` — a
deterministic 64-byte signature, a function of the secret seed, the public
key stored in the pair, and the message. -/
def ed_sign (secret pubkey data : List Byte) : List Byte :=
  (List.range 64).map
    (fun i => prf (4 * i) ((4 : Byte) :: secret ++ (5 : Byte) :: pubkey ++ (6 : Byte) :: data))

/-- Modelled external collaborator: `ed25519_dalek::SecretKey::from_bytes` —
succeeds exactly on 32-byte inputs. -/
def secret_key_from_bytes (bs : List Byte) : Option (List Byte) :=
  if bs.length = 32 then some bs else none

/-- `ed25519_dalek::Keypair`. -/
structure Keypair where
  secret : List Byte
  public : List Byte
deriving DecidableEq

/-- `EncryptedKeyError` of the source. -/
inductive EncryptedKeyError where
  | FailedToGenerateRandomBytes
  | InvalidPrivateKey
  | FailedToDecryptData
  | FailedToEncryptData
deriving DecidableEq

/-- The `decrypt` helper of the source: AEAD decryption with every failure
mapped to `FailedToDecryptData`.  (`decrypt_secure` only wraps the result in
a secure buffer and is identical at this level.) -/
def decrypt (key nonce data : List Byte) : Except EncryptedKeyError (List Byte) :=
  match aeadDecrypt key nonce data with
  | some x => .ok x
  | none => .error .FailedToDecryptData

/-- The `encrypt` helper of the source: AEAD encryption; the underlying
`chacha20poly1305` encrypt call cannot fail, so the
`FailedToEncryptData` branch of the source is never taken. -/
def encrypt (key nonce data : List Byte) : Except EncryptedKeyError (List Byte) :=
  .ok (aeadEncrypt key nonce data)

/-- `decrypt_key_pair` of the source: decrypt, parse the 32-byte seed, and
recompute the public half from the secret. -/
def decrypt_key_pair (encrypted_key key nonce : List Byte) :
    Except EncryptedKeyError Keypair :=
  match decrypt key nonce encrypted_key with
  | .error e => .error e
  | .ok data =>
    match secret_key_from_bytes data with
    | none => .error .InvalidPrivateKey
    | some secret => .ok ⟨secret, publicKeyFromSecret secret⟩

/-- `CryptoData::sign`: derive the key, decrypt the private key, parse the
seed, pair it with the stored `pubkey`, and sign. -/
def CryptoData.sign (self : CryptoData) (data password : List Byte) :
    Except EncryptedKeyError (List Byte) :=
  let key := symmetric_key_from_password password self.salt
  match decrypt key self.private_key_nonce self.encrypted_private_key with
  | .error e => .error e
  | .ok x =>
    match secret_key_from_bytes x with
    | none => .error .InvalidPrivateKey
    | some secret => .ok (ed_sign secret self.pubkey data)

/-- UTF-8 continuation byte: `0x80 ≤ b < 0xC0`. -/
def utf8Cont (b : Byte) : Bool := 128 ≤ b.val && b.val < 192

/-- `String::from_utf8` validity (the standard UTF-8 well-formedness check,
rejecting overlong encodings, surrogates and values above U+10FFFF). -/
def utf8Valid : List Byte → Bool
  | [] => true
  | b :: rest =>
    if b.val < 128 then utf8Valid rest
    else if b.val < 194 then false
    else if b.val < 224 then
      match rest with
      | c :: rest2 => utf8Cont c && utf8Valid rest2
      | [] => false
    else if b.val < 240 then
      match rest with
      | c :: d :: rest2 =>
        (if b.val = 224 then decide (160 ≤ c.val && c.val < 192 : Bool)
         else if b.val = 237 then decide (128 ≤ c.val && c.val < 160 : Bool)
         else utf8Cont c) && utf8Cont d && utf8Valid rest2
      | _ => false
    else if b.val < 245 then
      match rest with
      | c :: d :: e :: rest2 =>
        (if b.val = 240 then decide (144 ≤ c.val && c.val < 192 : Bool)
         else if b.val = 244 then decide (128 ≤ c.val && c.val < 144 : Bool)
         else utf8Cont c) && utf8Cont d && utf8Cont e && utf8Valid rest2
      | _ => false
    else false

/-- `EncryptedKey::get_mnemonic`: decrypt the seed phrase and validate
UTF-8, mapping a UTF-8 failure to `FailedToDecryptData`. -/
def CryptoData.get_mnemonic (self : CryptoData) (password : List Byte) :
    Except EncryptedKeyError (List Byte) :=
  let key := symmetric_key_from_password password self.salt
  match decrypt key self.seed_phrase_nonce self.encrypted_seed_phrase with
  | .error e => .error e
  | .ok x => if utf8Valid x then .ok x else .error .FailedToDecryptData

/-- `EncryptedKey::get_key_pair`. -/
def CryptoData.get_key_pair (self : CryptoData) (password : List Byte) :
    Except EncryptedKeyError Keypair :=
  let key := symmetric_key_from_password password self.salt
  decrypt_key_pair self.encrypted_private_key key self.private_key_nonce

/-- A random-byte source: a stream of draws, each either delivering bytes or
failing (the error of `ring::rand::SecureRandom::fill`). -/
abbrev Rng := List (Option (List Byte))

/-- One `rng.fill` call: take the next draw, failing with
`FailedToGenerateRandomBytes` when the source fails or is exhausted. -/
def rng_fill : Rng → Except EncryptedKeyError (List Byte × Rng)
  | some bs :: rest => .ok (bs, rest)
  | _ => .error .FailedToGenerateRandomBytes

/-- Error type of `EncryptedKey::new` (`anyhow::Result`): either an
`EncryptedKeyError` or the invalid-mnemonic error surfaced unchanged from
the deriver. -/
inductive NewKeyError where
  | key (e : EncryptedKeyError)
  | invalidMnemonic
deriving DecidableEq

/-- Modelled from the spec: `derive_from_phrase` of `crypto::mnemonic` (not
under `src/`) — converts (phrase, mnemonic-kind) to an Ed25519 key pair whose
secret is a 32-byte seed and whose public half is derived from the secret;
it may fail with an invalid-mnemonic error (here: on the empty phrase). -/
def derive_from_phrase (phrase : List Byte) (_t : MnemonicType) :
    Except NewKeyError Keypair :=
  if phrase = [] then .error .invalidMnemonic
  else
    let secret := (List.range 32).map (fun i => prf (4 * i + 2) ((7 : Byte) :: phrase))
    .ok ⟨secret, publicKeyFromSecret secret⟩

/-- `EncryptedKey::new`: draw the two nonces and the salt, derive the key,
derive the key pair from the phrase, encrypt the seed and the phrase, and
assemble the record. -/
def EncryptedKey.new (nm : List Char) (password : List Byte)
    (account_type : MnemonicType) (phrase : List Byte) (rng : Rng) :
    Except NewKeyError CryptoData :=
  match rng_fill rng with
  | .error e => .error (.key e)
  | .ok (private_key_nonce, rng1) =>
  match rng_fill rng1 with
  | .error e => .error (.key e)
  | .ok (seed_phrase_nonce, rng2) =>
  match rng_fill rng2 with
  | .error e => .error (.key e)
  | .ok (salt, _rng3) =>
  let key := symmetric_key_from_password password salt
  match derive_from_phrase phrase account_type with
  | .error e => .error e
  | .ok keypair =>
  match encrypt key private_key_nonce keypair.secret with
  | .error e => .error (.key e)
  | .ok encrypted_private_key =>
  match encrypt key seed_phrase_nonce phrase with
  | .error e => .error (.key e)
  | .ok encrypted_seed_phrase =>
  .ok { account_type := account_type, name := nm, pubkey := keypair.public,
        encrypted_private_key := encrypted_private_key,
        private_key_nonce := private_key_nonce,
        encrypted_seed_phrase := encrypted_seed_phrase,
        seed_phrase_nonce := seed_phrase_nonce, salt := salt }

/-- `EncryptedKey::change_password`, translated statement by statement: the
record is threaded explicitly, every early return hands back the unmodified
record, and the field assignments of the source happen only in the final
branch. -/
def EncryptedKey.change_password (self : CryptoData)
    (old_password new_password : List Byte) (rng : Rng) :
    Except EncryptedKeyError Unit × CryptoData :=
  match rng_fill rng with
  | .error e => (.error e, self)
  | .ok (new_private_key_nonce, rng1) =>
  match rng_fill rng1 with
  | .error e => (.error e, self)
  | .ok (new_seed_phrase_nonce, rng2) =>
  match rng_fill rng2 with
  | .error e => (.error e, self)
  | .ok (new_salt, _rng3) =>
  let old_key := symmetric_key_from_password old_password self.salt
  let new_key := symmetric_key_from_password new_password new_salt
  match decrypt_key_pair self.encrypted_private_key old_key self.private_key_nonce with
  | .error e => (.error e, self)
  | .ok key_pair =>
  match encrypt new_key new_private_key_nonce key_pair.secret with
  | .error e => (.error e, self)
  | .ok new_encrypted_private_key =>
  match decrypt old_key self.seed_phrase_nonce self.encrypted_seed_phrase with
  | .error e => (.error e, self)
  | .ok seed_phrase =>
  match encrypt new_key new_seed_phrase_nonce seed_phrase with
  | .error e => (.error e, self)
  | .ok new_encrypted_seed_phrase =>
  (.ok (), { self with
             salt := new_salt,
             encrypted_private_key := new_encrypted_private_key,
             private_key_nonce := new_private_key_nonce,
             encrypted_seed_phrase := new_encrypted_seed_phrase,
             seed_phrase_nonce := new_seed_phrase_nonce })

/-! ## Concrete sample data used by witnesses and counterexamples -/

def pw0 : List Byte := [49, 50, 51]

def pwWrong : List Byte := [108, 111, 108]

def pwNew : List Byte := [52, 53, 54]

def salt0 : List Byte := List.replicate 32 7

def nonce1 : List Byte := List.replicate 12 1

def nonce2 : List Byte := List.replicate 12 2

def key0 : List Byte := symmetric_key_from_password pw0 salt0

def seed0 : List Byte := List.replicate 32 9

def phrase0 : List Byte := [104, 105]

/-- A record as `new` would build it for `pw0`: both ciphertexts are fresh
encryptions under the key derived from (`pw0`, `salt0`). -/
def record0 : CryptoData :=
  { account_type := .Legacy, name := "Test key".toList,
    pubkey := publicKeyFromSecret seed0,
    encrypted_private_key := aeadEncrypt key0 nonce1 seed0,
    private_key_nonce := nonce1,
    encrypted_seed_phrase := aeadEncrypt key0 nonce2 phrase0,
    seed_phrase_nonce := nonce2,
    salt := salt0 }

/-- `record0` with the stored pubkey field altered independently of the
ciphertext: decryption still succeeds, but the derived public key differs. -/
def recordMismatch : CryptoData := { record0 with pubkey := List.replicate 32 0 }

/-- `record0` with a seed-phrase ciphertext whose plaintext is not UTF-8. -/
def recordBadUtf8 : CryptoData :=
  { record0 with encrypted_seed_phrase := aeadEncrypt key0 nonce2 [255] }

/-! ## C2: wrong password on sign -/

/-- C2: for every record and data, `sign` under any password whose derived
key fails AEAD tag verification on `encrypted_private_key` returns the error
`FailedToDecryptData` and never a signature; the error kind is the same
constant for every such wrong password. -/
theorem sign_wrong_password_fails (R : CryptoData) (data password : List Byte)
    (h : aeadDecrypt (symmetric_key_from_password password R.salt)
        R.private_key_nonce R.encrypted_private_key = none) :
    R.sign data password = .error .FailedToDecryptData := by
  simp only [CryptoData.sign, decrypt, h]

theorem sign_wrong_password_fails_witness :
    CryptoData.sign record0 [1, 2] pwWrong = .error .FailedToDecryptData :=
  sign_wrong_password_fails record0 [1, 2] pwWrong (by decide)

/-! ## C8: get_mnemonic and UTF-8 failure conflation -/

/-- C8: `get_mnemonic` returns the decrypted plaintext when it is valid
UTF-8, and fails with `FailedToDecryptData` — the same error kind as an AEAD
tag mismatch, not a distinct kind — when the plaintext is not valid UTF-8. -/
theorem get_mnemonic_utf8_conflation (R : CryptoData) (password : List Byte) :
    (∀ x, aeadDecrypt (symmetric_key_from_password password R.salt)
        R.seed_phrase_nonce R.encrypted_seed_phrase = some x →
      R.get_mnemonic password
        = if utf8Valid x then .ok x else .error .FailedToDecryptData) ∧
    (aeadDecrypt (symmetric_key_from_password password R.salt)
        R.seed_phrase_nonce R.encrypted_seed_phrase = none →
      R.get_mnemonic password = .error .FailedToDecryptData) := by
  constructor
  · intro x hx
    simp only [CryptoData.get_mnemonic, decrypt, hx]
  · intro hx
    simp only [CryptoData.get_mnemonic, decrypt, hx]

theorem get_mnemonic_utf8_conflation_witness :
    CryptoData.get_mnemonic recordBadUtf8 pw0 = .error .FailedToDecryptData := by
  have h := (get_mnemonic_utf8_conflation recordBadUtf8 pw0).1 [255] (by decide)
  rw [h]
  rfl

/-! ## C9: serialization is infallible -/

/-- C9: serialization is infallible on every record: `as_json` produces a
blob for every record, the `trust_me` unwrap never hits its panicking
branch. -/
theorem as_json_infallible (R : CryptoData) : as_json R = some R.toJson := rfl

/-! ## C10: get_key_pair recomputes the public key -/

/-- C10: whenever decryption of `encrypted_private_key` succeeds with a
32-byte secret, `get_key_pair` returns the pair whose public half is
recomputed from the decrypted secret via `PublicKey::from(&secret)`, not
read from the record's stored `pubkey` field. -/
theorem get_key_pair_recomputes_public (R : CryptoData) (password s : List Byte)
    (h : aeadDecrypt (symmetric_key_from_password password R.salt)
        R.private_key_nonce R.encrypted_private_key = some s)
    (hl : s.length = 32) :
    R.get_key_pair password = .ok ⟨s, publicKeyFromSecret s⟩ := by
  simp [CryptoData.get_key_pair, decrypt_key_pair, decrypt, h,
    secret_key_from_bytes, hl]

theorem get_key_pair_recomputes_public_witness :
    CryptoData.get_key_pair recordMismatch pw0 = .ok ⟨seed0, publicKeyFromSecret seed0⟩ ∧
    publicKeyFromSecret seed0 ≠ recordMismatch.pubkey :=
  ⟨get_key_pair_recomputes_public recordMismatch pw0 seed0 (by decide) (by decide),
   by decide⟩

/-! ## C1: change_password is all-or-nothing -/

/-- C1: `change_password` is all-or-nothing: whenever any step fails (RNG
error, decryption failure under the old password, or encryption failure) it
returns an error and leaves the record identical to its pre-call state; and
when both re-encryptions succeed it replaces the salt, both nonces and both
ciphertexts with the freshly drawn and re-encrypted values. -/
theorem change_password_atomic (self : CryptoData) (old_pw new_pw : List Byte) (rng : Rng) :
    (∀ e, (EncryptedKey.change_password self old_pw new_pw rng).1 = .error e →
        (EncryptedKey.change_password self old_pw new_pw rng).2 = self) ∧
    (∀ n1 n2 s rest secret phrase,
        rng = some n1 :: some n2 :: some s :: rest →
        aeadDecrypt (symmetric_key_from_password old_pw self.salt)
          self.private_key_nonce self.encrypted_private_key = some secret →
        secret.length = 32 →
        aeadDecrypt (symmetric_key_from_password old_pw self.salt)
          self.seed_phrase_nonce self.encrypted_seed_phrase = some phrase →
        EncryptedKey.change_password self old_pw new_pw rng =
          (.ok (), { self with
             salt := s,
             encrypted_private_key :=
               aeadEncrypt (symmetric_key_from_password new_pw s) n1 secret,
             private_key_nonce := n1,
             encrypted_seed_phrase :=
               aeadEncrypt (symmetric_key_from_password new_pw s) n2 phrase,
             seed_phrase_nonce := n2 })) := by
  constructor
  · intro e
    unfold EncryptedKey.change_password
    repeat' split
    all_goals try simp only []
    repeat' split
    all_goals intro h
    all_goals first
      | rfl
      | exact trivial
      | exact Except.noConfusion h
  · intro n1 n2 s rest secret phrase hrng hdec hlen hdec2
    subst hrng
    unfold EncryptedKey.change_password
    simp only [rng_fill]
    simp [decrypt_key_pair, decrypt, hdec, hdec2, secret_key_from_bytes, hlen, encrypt]

def nonceW1 : List Byte := List.replicate 12 3

def nonceW2 : List Byte := List.replicate 12 4

def saltW : List Byte := List.replicate 32 5

def rngW : Rng := [some nonceW1, some nonceW2, some saltW]

theorem change_password_atomic_witness :
    EncryptedKey.change_password record0 pw0 pwNew rngW =
      (.ok (), { record0 with
        salt := saltW,
        encrypted_private_key :=
          aeadEncrypt (symmetric_key_from_password pwNew saltW) nonceW1 seed0,
        private_key_nonce := nonceW1,
        encrypted_seed_phrase :=
          aeadEncrypt (symmetric_key_from_password pwNew saltW) nonceW2 phrase0,
        seed_phrase_nonce := nonceW2 }) :=
  (change_password_atomic record0 pw0 pwNew rngW).2 nonceW1 nonceW2 saltW []
    seed0 phrase0 rfl (by decide) (by decide) (by decide)

/-! ## C7: new encrypts the seed and the phrase, pubkey is the public half -/

/-- C7: after a successful `new(name, password, kind, phrase)`, decrypting
the record's `encrypted_private_key` with the derived key and
`private_key_nonce` yields exactly the 32-byte seed of the key pair derived
from (phrase, kind); decrypting `encrypted_seed_phrase` with the derived key
and `seed_phrase_nonce` yields exactly the bytes of the phrase; and the
record's `pubkey` equals the public half of that key pair. -/
theorem new_encrypts_seed_and_phrase (nm : List Char) (password : List Byte)
    (account_type : MnemonicType) (phrase : List Byte)
    (n1 n2 s : List Byte) (rest : Rng) (kp : Keypair) (R : CryptoData)
    (hd : derive_from_phrase phrase account_type = .ok kp)
    (hr : EncryptedKey.new nm password account_type phrase
        (some n1 :: some n2 :: some s :: rest) = .ok R) :
    aeadDecrypt (symmetric_key_from_password password s) n1 R.encrypted_private_key
      = some kp.secret ∧
    kp.secret.length = 32 ∧
    aeadDecrypt (symmetric_key_from_password password s) n2 R.encrypted_seed_phrase
      = some phrase ∧
    R.pubkey = kp.public := by
  have hsec : kp.secret.length = 32 := by
    unfold derive_from_phrase at hd
    split at hd
    · exact Except.noConfusion hd
    · cases hd
      simp
  unfold EncryptedKey.new at hr
  simp only [rng_fill] at hr
  rw [hd] at hr
  simp only [encrypt] at hr
  cases hr
  exact ⟨aeadDecrypt_aeadEncrypt _ _ _, hsec, aeadDecrypt_aeadEncrypt _ _ _, rfl⟩

def derivedSecret0 : List Byte :=
  (List.range 32).map (fun i => prf (4 * i + 2) ((7 : Byte) :: phrase0))

def kp0 : Keypair := ⟨derivedSecret0, publicKeyFromSecret derivedSecret0⟩

/-- The record `new` builds from (`pw0`, `phrase0`) and the draws
`nonce1`, `nonce2`, `salt0`. -/
def newRecord0 : CryptoData :=
  { account_type := .Legacy, name := "k".toList, pubkey := kp0.public,
    encrypted_private_key := aeadEncrypt key0 nonce1 kp0.secret,
    private_key_nonce := nonce1,
    encrypted_seed_phrase := aeadEncrypt key0 nonce2 phrase0,
    seed_phrase_nonce := nonce2,
    salt := salt0 }

theorem new_encrypts_seed_and_phrase_witness :
    aeadDecrypt (symmetric_key_from_password pw0 salt0) nonce1
      newRecord0.encrypted_private_key = some kp0.secret ∧
    kp0.secret.length = 32 ∧
    aeadDecrypt (symmetric_key_from_password pw0 salt0) nonce2
      newRecord0.encrypted_seed_phrase = some phrase0 ∧
    newRecord0.pubkey = kp0.public :=
  new_encrypts_seed_and_phrase "k".toList pw0 .Legacy phrase0 nonce1 nonce2 salt0 []
    kp0 newRecord0 (by decide) (by decide)

/-! ## C3: the authenticity invariant is not checked by sign / get_key_pair -/

/-- C3 counterexample: a record on which decryption of
`encrypted_private_key` succeeds with a 32-byte seed whose derived public
key differs from the stored `pubkey`, yet `sign` returns a signature and
`get_key_pair` returns a key pair — neither operation reports the
mismatch. -/
theorem sign_no_mismatch_detection_cex :
    aeadDecrypt (symmetric_key_from_password pw0 recordMismatch.salt)
      recordMismatch.private_key_nonce recordMismatch.encrypted_private_key
      = some seed0 ∧
    publicKeyFromSecret seed0 ≠ recordMismatch.pubkey ∧
    CryptoData.sign recordMismatch [1] pw0
      = .ok (ed_sign seed0 recordMismatch.pubkey [1]) ∧
    CryptoData.get_key_pair recordMismatch pw0
      = .ok ⟨seed0, publicKeyFromSecret seed0⟩ :=
  ⟨by decide, by decide, by decide, by decide⟩

/-- C3 amended: after a successful decryption the code performs no
comparison between the public key derived from the decrypted seed and the
stored `pubkey`: `sign` pairs the seed with the stored `pubkey` and
succeeds, and `get_key_pair` returns the recomputed public key and
succeeds, regardless of whether the two agree. -/
theorem sign_uses_stored_pubkey_no_check (R : CryptoData) (data password s : List Byte)
    (h : aeadDecrypt (symmetric_key_from_password password R.salt)
        R.private_key_nonce R.encrypted_private_key = some s)
    (hl : s.length = 32) :
    R.sign data password = .ok (ed_sign s R.pubkey data) ∧
    R.get_key_pair password = .ok ⟨s, publicKeyFromSecret s⟩ := by
  constructor
  · simp [CryptoData.sign, decrypt, h, secret_key_from_bytes, hl]
  · simp [CryptoData.get_key_pair, decrypt_key_pair, decrypt, h,
      secret_key_from_bytes, hl]

theorem sign_uses_stored_pubkey_no_check_witness :
    CryptoData.sign recordMismatch [2] pw0
      = .ok (ed_sign seed0 recordMismatch.pubkey [2]) ∧
    CryptoData.get_key_pair recordMismatch pw0
      = .ok ⟨seed0, publicKeyFromSecret seed0⟩ :=
  sign_uses_stored_pubkey_no_check recordMismatch [2] pw0 seed0 (by decide) (by decide)

/-! ## C4: serialize-then-deserialize is the identity -/

/-- C4: for every record a vault can hold (32-byte pubkey, 12-byte nonces —
lengths the source types `PublicKey` and `Nonce` enforce), deserializing the
serialization succeeds and returns a record equal to the original in every
field. -/
theorem from_reader_as_json_roundtrip (R : CryptoData)
    (hp : R.pubkey.length = 32) (hn1 : R.private_key_nonce.length = 12)
    (hn2 : R.seed_phrase_nonce.length = 12) :
    as_json R = some R.toJson ∧ from_reader R.toJson = .ok R := by
  refine ⟨rfl, ?_⟩
  have hat : account_type_deserialize R.toJson = .ok R.account_type := by
    cases R.account_type
    rfl
  have hnm : getStr R.toJson "name".toList = .ok R.name := rfl
  have hpub : hex_pubkey_deserialize R.toJson "pubkey".toList = .ok R.pubkey := by
    have e : getStr R.toJson "pubkey".toList = .ok (hexEncodeList R.pubkey) := rfl
    simp only [hex_pubkey_deserialize, hex_encode_deserialize, e, hexDecode_hexEncode]
    simp [hp]
  have hepk : hex_encode_deserialize R.toJson "encrypted_private_key".toList
      = .ok R.encrypted_private_key := by
    have e : getStr R.toJson "encrypted_private_key".toList
        = .ok (hexEncodeList R.encrypted_private_key) := rfl
    simp only [hex_encode_deserialize, e, hexDecode_hexEncode]
  have hpkn : hex_nonce_deserialize R.toJson "private_key_nonce".toList
      = .ok R.private_key_nonce := by
    have e : getStr R.toJson "private_key_nonce".toList
        = .ok (hexEncodeList R.private_key_nonce) := rfl
    simp only [hex_nonce_deserialize, hex_encode_deserialize, e, hexDecode_hexEncode]
    simp [hn1]
  have hesp : hex_encode_deserialize R.toJson "encrypted_seed_phrase".toList
      = .ok R.encrypted_seed_phrase := by
    have e : getStr R.toJson "encrypted_seed_phrase".toList
        = .ok (hexEncodeList R.encrypted_seed_phrase) := rfl
    simp only [hex_encode_deserialize, e, hexDecode_hexEncode]
  have hspn : hex_nonce_deserialize R.toJson "seed_phrase_nonce".toList
      = .ok R.seed_phrase_nonce := by
    have e : getStr R.toJson "seed_phrase_nonce".toList
        = .ok (hexEncodeList R.seed_phrase_nonce) := rfl
    simp only [hex_nonce_deserialize, hex_encode_deserialize, e, hexDecode_hexEncode]
    simp [hn2]
  have hsalt : hex_encode_deserialize R.toJson "salt".toList = .ok R.salt := by
    have e : getStr R.toJson "salt".toList = .ok (hexEncodeList R.salt) := rfl
    simp only [hex_encode_deserialize, e, hexDecode_hexEncode]
  simp only [from_reader, hat, hnm, hpub, hepk, hpkn, hesp, hspn, hsalt]

theorem from_reader_as_json_roundtrip_witness :
    as_json record0 = some record0.toJson ∧ from_reader record0.toJson = .ok record0 :=
  from_reader_as_json_roundtrip record0 (by decide) (by decide) (by decide)

/-! ## C5: deserialization rejects nonces of decoded length different from 12 -/

theorem hex_nonce_deserialize_rejects (j : Json) (nm s : List Char) (bs : List Byte)
    (h1 : getStr j nm = .ok s) (h2 : hexDecodeList s = some bs) (h3 : bs.length ≠ 12) :
    hex_nonce_deserialize j nm = .error "Bad nonce len".toList := by
  simp only [hex_nonce_deserialize, hex_encode_deserialize, h1, h2]
  rw [if_neg h3]

/-- C5: for every input blob in which the `private_key_nonce` or the
`seed_phrase_nonce` field hex-decodes to a byte length different from 12,
`from_reader` returns an error and does not produce a vault. -/
theorem from_reader_rejects_bad_nonce_len (j : Json) (s : List Char) (bs : List Byte)
    (hnonce :
      (getStr j "private_key_nonce".toList = .ok s ∧
        hexDecodeList s = some bs ∧ bs.length ≠ 12) ∨
      (getStr j "seed_phrase_nonce".toList = .ok s ∧
        hexDecodeList s = some bs ∧ bs.length ≠ 12)) :
    (from_reader j).isOk = false := by
  unfold from_reader
  rcases hnonce with ⟨h1, h2, h3⟩ | ⟨h1, h2, h3⟩
  · have hbad := hex_nonce_deserialize_rejects j "private_key_nonce".toList s bs h1 h2 h3
    repeat' split
    all_goals simp_all [Except.isOk, Except.toBool]
  · have hbad := hex_nonce_deserialize_rejects j "seed_phrase_nonce".toList s bs h1 h2 h3
    repeat' split
    all_goals simp_all [Except.isOk, Except.toBool]

/-- A blob whose `private_key_nonce` hex-decodes to a single byte. -/
def badNonceBlob : Json :=
  .obj [("account_type".toList, .str "Legacy".toList),
        ("name".toList, .str "n".toList),
        ("pubkey".toList, .str (hexEncodeList (List.replicate 32 0))),
        ("encrypted_private_key".toList, .str []),
        ("private_key_nonce".toList, .str "00".toList),
        ("encrypted_seed_phrase".toList, .str []),
        ("seed_phrase_nonce".toList, .str (hexEncodeList (List.replicate 12 0))),
        ("salt".toList, .str (hexEncodeList (List.replicate 32 0)))]

theorem from_reader_rejects_bad_nonce_len_witness :
    (from_reader badNonceBlob).isOk = false :=
  from_reader_rejects_bad_nonce_len badNonceBlob "00".toList [0]
    (.inl ⟨by decide, by decide, by decide⟩)

/-! ## C6: deserialization does not check the salt length -/

/-- An otherwise-valid blob with the salt text substituted. -/
def saltBlob (s : List Char) : Json :=
  .obj [("account_type".toList, .str "Legacy".toList),
        ("name".toList, .str "n".toList),
        ("pubkey".toList, .str (hexEncodeList (List.replicate 32 0))),
        ("encrypted_private_key".toList, .str []),
        ("private_key_nonce".toList, .str (hexEncodeList (List.replicate 12 0))),
        ("encrypted_seed_phrase".toList, .str []),
        ("seed_phrase_nonce".toList, .str (hexEncodeList (List.replicate 12 0))),
        ("salt".toList, .str s)]

/-- The record `from_reader` produces from `saltBlob`. -/
def saltBlobRecord (bs : List Byte) : CryptoData :=
  { account_type := .Legacy, name := "n".toList, pubkey := List.replicate 32 0,
    encrypted_private_key := [], private_key_nonce := List.replicate 12 0,
    encrypted_seed_phrase := [], seed_phrase_nonce := List.replicate 12 0,
    salt := bs }

/-- C6 counterexample: a blob whose salt hex-decodes to 1 byte is accepted
by `from_reader`, producing a vault with a salt of length 1, not 32. -/
theorem from_reader_accepts_short_salt_cex :
    from_reader (saltBlob "00".toList) = .ok (saltBlobRecord [0]) ∧
    (saltBlobRecord [0]).salt.length ≠ 32 :=
  ⟨by decide, by decide⟩

/-- C6 amended: deserialization performs no length check on the salt field
(`salt` goes through `hex_encode::deserialize`, which only hex-decodes):
for every byte string, an otherwise-valid blob carrying it as the salt is
accepted and yields a vault with exactly that salt, whatever its length. -/
theorem from_reader_salt_any_length (bs : List Byte) :
    from_reader (saltBlob (hexEncodeList bs)) = .ok (saltBlobRecord bs) := by
  have e : getStr (saltBlob (hexEncodeList bs)) "salt".toList
      = .ok (hexEncodeList bs) := rfl
  have h1 : account_type_deserialize (saltBlob (hexEncodeList bs)) = .ok .Legacy := rfl
  have h2 : getStr (saltBlob (hexEncodeList bs)) "name".toList = .ok "n".toList := rfl
  have h3 : hex_pubkey_deserialize (saltBlob (hexEncodeList bs)) "pubkey".toList
      = .ok (List.replicate 32 0) := rfl
  have h4 : hex_encode_deserialize (saltBlob (hexEncodeList bs))
      "encrypted_private_key".toList = .ok [] := rfl
  have h5 : hex_nonce_deserialize (saltBlob (hexEncodeList bs))
      "private_key_nonce".toList = .ok (List.replicate 12 0) := rfl
  have h6 : hex_encode_deserialize (saltBlob (hexEncodeList bs))
      "encrypted_seed_phrase".toList = .ok [] := rfl
  have h7 : hex_nonce_deserialize (saltBlob (hexEncodeList bs))
      "seed_phrase_nonce".toList = .ok (List.replicate 12 0) := rfl
  have hs : hex_encode_deserialize (saltBlob (hexEncodeList bs)) "salt".toList
      = .ok bs := by
    simp only [hex_encode_deserialize, e, hexDecode_hexEncode]
  simp only [from_reader, h1, h2, h3, h4, h5, h6, h7, hs]
  rfl
